import Mathlib

/-!
Verification of the real-time voice interview orchestrator of
`backend.py` (the WebSocket behavioral-interview subsystem).

The development shallowly embeds the relevant Python code:

* text utilities (`_norm_text`, whitespace collapse, token extraction),
* an existence-semantics matcher for the handful of `re.search` patterns
  used by the deterministic guardrails (each pattern is compiled by hand
  into a list of alternatives over a tiny segment language; alternation
  groups and `?`-optional groups are expanded into explicit alternatives,
  `\b` word boundaries, `\s+`, `\s*`, `.`-star and bounded `[\s\S]{0,40}`
  gaps are represented directly, with full backtracking, so the Boolean
  result agrees with Python's `re.search` on whether a match exists),
* the nonsense-answer classifiers and `evaluate_interview_performance`
  (with the already-parsed model response passed as an explicit
  `Option ParsedResponse` argument in place of the network call),
* the question-list finalization of `generate_questions_with_prompt`,
* the transcript merger `_merge_transcript`, and
* the per-session state machine of `behavioral_interview_websocket`
  (`_send_canonical_question`, `_store_candidate_transcript`,
  `_record_candidate_answer`, and the inbound/outbound event handling),
  modelled as a step function over an explicit `SessionState`.

Python strings are modelled as `List Char`; Python ints as `Int`/`Nat`.
Python `str.casefold` is modelled as per-character `Char.toLower`, and
the `\w`/`\s` character classes as their ASCII cores; the source only
ever feeds these code points through the affected paths in the claims
considered here.  The float comparisons `top/wc >= 0.45`,
`alpha/non_ws < 0.35` and `uniq/wc < 0.25` are realized by exact integer
cross-multiplication: with the small denominators involved the double
rounding of the Python expressions cannot flip any of these comparisons.
-/

/-- ASCII core of Python's `\s` class (the guardrail inputs are
whitespace-collapsed before the patterns run, so only `' '` and `'\n'`
actually occur there). -/
def isWSChar (c : Char) : Bool :=
  c = ' ' || c = '\t' || c = '\n' || c = '\r' || c = '\x0b' || c = '\x0c'

/-- ASCII core of Python's `\w` class, used for `\b` word boundaries. -/
def isWordChar (c : Char) : Bool :=
  c.isAlphanum || c = '_'

/-- ASCII letter, Python's `[A-Za-z]`. -/
def isAsciiLetter (c : Char) : Bool :=
  ('a' ≤ c && c ≤ 'z') || ('A' ≤ c && c ≤ 'Z')

/-- Characters matched by the word-token pattern `[a-zA-Z']+`. -/
def isLetterOrApos (c : Char) : Bool :=
  isAsciiLetter c || c = '\''

/-- Model of `str.casefold` (per-character lowering; identical on ASCII). -/
def casefoldL (s : List Char) : List Char :=
  s.map Char.toLower

/-- Maximal runs of characters satisfying `p` (used for
`re.findall(class+, s)` style token extraction). -/
def runsBy (p : Char → Bool) : List Char → List Char → List (List Char)
  | [], cur => if cur.isEmpty then [] else [cur.reverse]
  | c :: t, cur =>
    if p c then runsBy p t (c :: cur)
    else if cur.isEmpty then runsBy p t [] else cur.reverse :: runsBy p t []

/-- Python `str.strip()`: drop leading and trailing whitespace. -/
def stripWS (s : List Char) : List Char :=
  ((s.dropWhile isWSChar).reverse.dropWhile isWSChar).reverse

/-- Embeds `_norm_text` (backend.py:3504): `re.sub(r"\s+", " ", s.strip())`,
realized as the single-space join of the maximal non-whitespace runs. -/
def _norm_text (s : List Char) : List Char :=
  List.intercalate [' '] (runsBy (fun c => !isWSChar c) s [])

/-- Python `needle in hay` on strings (contiguous substring test). -/
def subOf (needle : List Char) : List Char → Bool
  | [] => List.isPrefixOf needle []
  | c :: t => if List.isPrefixOf needle (c :: t) then true else subOf needle t

/-- Segment language for the hand-compiled `re.search` patterns.  A
pattern alternative is a `List Seg`; alternation and optional groups of
the source regexes are expanded into separate alternatives. -/
inductive Seg where
  | ch (c : Char)
  | ws0
  | ws1
  | dotStar
  | anyUpTo (n : Nat)
  | bdry
  deriving Repr, DecidableEq

/-- Fuel-indexed worker for `consumeSegs` (structural recursion on the
fuel so that the function reduces definitionally).  Every recursive call
strictly decreases `segs.length + s.length`, so the fuel supplied by
`consumeSegs` can never run out and the `none`-on-zero branch is
unreachable. -/
def consumeSegsF : Nat → List Seg → Option Char → List Char → Option (List Char)
  | 0, _, _, _ => none
  | _ + 1, [], _, s => some s
  | fuel + 1, Seg.ch c :: rest, _, s =>
    match s with
    | [] => none
    | d :: t => if d = c then consumeSegsF fuel rest (some d) t else none
  | fuel + 1, Seg.ws0 :: rest, prev, s =>
    match consumeSegsF fuel rest prev s with
    | some r => some r
    | none =>
      match s with
      | [] => none
      | d :: t => if isWSChar d then consumeSegsF fuel (Seg.ws0 :: rest) (some d) t else none
  | fuel + 1, Seg.ws1 :: rest, _, s =>
    match s with
    | [] => none
    | d :: t => if isWSChar d then consumeSegsF fuel (Seg.ws0 :: rest) (some d) t else none
  | fuel + 1, Seg.dotStar :: rest, prev, s =>
    match consumeSegsF fuel rest prev s with
    | some r => some r
    | none =>
      match s with
      | [] => none
      | d :: t => if d = '\n' then none else consumeSegsF fuel (Seg.dotStar :: rest) (some d) t
  | fuel + 1, Seg.anyUpTo n :: rest, prev, s =>
    match consumeSegsF fuel rest prev s with
    | some r => some r
    | none =>
      match n, s with
      | 0, _ => none
      | _, [] => none
      | m + 1, d :: t => consumeSegsF fuel (Seg.anyUpTo m :: rest) (some d) t
  | fuel + 1, Seg.bdry :: rest, prev, s =>
    if ((match prev with | none => false | some c => isWordChar c)
        ≠ (match s.head? with | none => false | some c => isWordChar c)) then
      consumeSegsF fuel rest prev s
    else none

/-- Try to consume `segs` at the front of `s`; `prev` is the character
immediately before the current position (for `\b`).  Returns the
remaining input on success.  Backtracking is complete, so `isSome`
agrees with existence of a regex match anchored at this position. -/
def consumeSegs (segs : List Seg) (prev : Option Char) (s : List Char) : Option (List Char) :=
  consumeSegsF (segs.length + s.length + 1) segs prev s

/-- Scan every start position of `s` for a match of one of `alts`. -/
def scanAlts (alts : List (List Seg)) : Option Char → List Char → Bool
  | prev, [] => alts.any (fun a => (consumeSegs a prev []).isSome)
  | prev, c :: t =>
    if alts.any (fun a => (consumeSegs a prev (c :: t)).isSome) then true
    else scanAlts alts (some c) t

/-- Existence of a match, `re.search(pattern, s) is not None`, for a pattern compiled to `alts`. -/
def reSearch (alts : List (List Seg)) (s : List Char) : Bool :=
  scanAlts alts none s

/-- Literal characters of an alternative. -/
def lit (s : String) : List Seg :=
  s.toList.map Seg.ch

/-- Wrap an alternative in the `\b ... \b` anchors shared by all the
source patterns. -/
def bAlt (segs : List Seg) : List Seg :=
  Seg.bdry :: segs ++ [Seg.bdry]

/-- Cartesian expansion of a sequence of choice points (used to expand
`(x|y)` groups and `(...)?` optional groups into whole alternatives). -/
def seqAlts : List (List (List Seg)) → List (List Seg)
  | [] => [[]]
  | choices :: rest =>
    choices.flatMap (fun c => (seqAlts rest).map (fun tail => c ++ tail))

/-- Optional group `( ... )?`. -/
def optG (g : List Seg) : List (List Seg) := [[], g]

/-- Mandatory single segment group. -/
def oneG (g : List Seg) : List (List Seg) := [g]

/-- Alternation group `(a|b|...)`. -/
def altG (gs : List (List Seg)) : List (List Seg) := gs

/-! ### Hand-compiled guardrail patterns (backend.py:3539-3617, 3796) -/

/-- Pattern `\b(pass|skip|n/?a|no\s+comment|prefer\s+not\s+to\s+say)\b` (3539). -/
def nonAnswerAlts : List (List Seg) :=
  [bAlt (lit "pass"), bAlt (lit "skip"), bAlt (lit "na"),
   bAlt (lit "n" ++ [Seg.ch '/'] ++ lit "a"),
   bAlt (lit "no" ++ [Seg.ws1] ++ lit "comment"),
   bAlt (lit "prefer" ++ [Seg.ws1] ++ lit "not" ++ [Seg.ws1] ++ lit "to" ++ [Seg.ws1] ++ lit "say")]

/-- Pattern `\b(idk|i\s+don'?t\s+know|no\s+idea|whatever)\b` (3541). -/
def dontKnowAlts : List (List Seg) :=
  [bAlt (lit "idk"),
   bAlt (lit "i" ++ [Seg.ws1] ++ lit "dont" ++ [Seg.ws1] ++ lit "know"),
   bAlt (lit "i" ++ [Seg.ws1] ++ lit "don't" ++ [Seg.ws1] ++ lit "know"),
   bAlt (lit "no" ++ [Seg.ws1] ++ lit "idea"),
   bAlt (lit "whatever")]

/-- Pattern `\b(asdf|qwer|lorem|ipsum|blah)\b` (3543). -/
def gibberishAlts : List (List Seg) :=
  [bAlt (lit "asdf"), bAlt (lit "qwer"), bAlt (lit "lorem"),
   bAlt (lit "ipsum"), bAlt (lit "blah")]

/-- Pattern `\b(i\s*(always|usually|often)\s*)?(yell|scream|shout)\b` (3575);
the optional intensity group is expanded into explicit alternatives. -/
def yellAlts : List (List Seg) :=
  ([lit "yell", lit "scream", lit "shout"]).map bAlt
  ++ (seqAlts
    [oneG (lit "i" ++ [Seg.ws0]),
     altG [lit "always", lit "usually", lit "often"],
     oneG [Seg.ws0],
     altG [lit "yell", lit "scream", lit "shout"]]).map bAlt

/-- Pattern `\b(coworker|co-worker|colleague|manager|team|people)\b` (3575). -/
def coworkerAlts : List (List Seg) :=
  [bAlt (lit "coworker"), bAlt (lit "co-worker"), bAlt (lit "colleague"),
   bAlt (lit "manager"), bAlt (lit "team"), bAlt (lit "people")]

/-- The no-work admission pattern (3586-3591):
`\b(i\s*(did|do)\s*(no|zero)\s*(work|action)|i\s*(did|do)\s*nothing|
didn'?t\s*really\s*do\s*any\s*work|took\s*(no|zero)\s*action|
i\s*(never|didn'?t)\s*(help|contribute)|i\s*(didn'?t)\s*(contribute|participate))\b`. -/
def noWorkAlts : List (List Seg) :=
  ((seqAlts
    [oneG (lit "i" ++ [Seg.ws0]), altG [lit "did", lit "do"], oneG [Seg.ws0],
     altG [lit "no", lit "zero"], oneG [Seg.ws0], altG [lit "work", lit "action"]])
  ++ (seqAlts
    [oneG (lit "i" ++ [Seg.ws0]), altG [lit "did", lit "do"], oneG [Seg.ws0],
     oneG (lit "nothing")])
  ++ (seqAlts
    [altG [lit "didnt", lit "didn't"], oneG [Seg.ws0], oneG (lit "really"),
     oneG [Seg.ws0], oneG (lit "do"), oneG [Seg.ws0], oneG (lit "any"),
     oneG [Seg.ws0], oneG (lit "work")])
  ++ (seqAlts
    [oneG (lit "took" ++ [Seg.ws0]), altG [lit "no", lit "zero"],
     oneG [Seg.ws0], oneG (lit "action")])
  ++ (seqAlts
    [oneG (lit "i" ++ [Seg.ws0]), altG [lit "never", lit "didnt", lit "didn't"],
     oneG [Seg.ws0], altG [lit "help", lit "contribute"]])
  ++ (seqAlts
    [oneG (lit "i" ++ [Seg.ws0]), altG [lit "didnt", lit "didn't"],
     oneG [Seg.ws0], altG [lit "contribute", lit "participate"]])).map bAlt

/-- The abandonment pattern (3592-3597):
`\b(left\s+(my\s+)?team\s+(to\s+)?(handle|do)\s+(it\s+)?(by\s+)?themselves|
i\s*(went|left)\s+.*\s+and\s+never\s+came\s+back|ghosted|abandoned|
i\s*(just\s*)?stopped\s*(working|showing\s+up)|no\s*show)\b`. -/
def abandonAlts : List (List Seg) :=
  ((seqAlts
    [oneG (lit "left" ++ [Seg.ws1]), optG (lit "my" ++ [Seg.ws1]),
     oneG (lit "team" ++ [Seg.ws1]), optG (lit "to" ++ [Seg.ws1]),
     altG [lit "handle", lit "do"], oneG [Seg.ws1], optG (lit "it" ++ [Seg.ws1]),
     optG (lit "by" ++ [Seg.ws1]), oneG (lit "themselves")])
  ++ (seqAlts
    [oneG (lit "i" ++ [Seg.ws0]), altG [lit "went", lit "left"],
     oneG [Seg.ws1, Seg.dotStar, Seg.ws1], oneG (lit "and"), oneG [Seg.ws1],
     oneG (lit "never"), oneG [Seg.ws1], oneG (lit "came"), oneG [Seg.ws1],
     oneG (lit "back")])
  ++ [lit "ghosted"] ++ [lit "abandoned"]
  ++ (seqAlts
    [oneG (lit "i" ++ [Seg.ws0]), optG (lit "just" ++ [Seg.ws0]),
     oneG (lit "stopped" ++ [Seg.ws0]),
     altG [lit "working", lit "showing" ++ [Seg.ws1] ++ lit "up"]])
  ++ [lit "no" ++ [Seg.ws0] ++ lit "show"]).map bAlt

/-- Pattern `\b(kill|murder|shoot|stab|bomb|rape|assault|attack|hurt|harm)\b` (3611). -/
def violenceAlts : List (List Seg) :=
  ["kill", "murder", "shoot", "stab", "bomb", "rape", "assault", "attack",
   "hurt", "harm"].map (fun s => bAlt (lit s))

/-- Pattern `\b(steal|fraud|scam|embezzle|sabotage|blackmail|extort|leak\s+secrets|dox|hack)\b` (3614). -/
def unethicalAlts : List (List Seg) :=
  (["steal", "fraud", "scam", "embezzle", "sabotage", "blackmail", "extort",
    "dox", "hack"].map (fun s => bAlt (lit s)))
  ++ [bAlt (lit "leak" ++ [Seg.ws1] ++ lit "secrets")]

/-- Pattern `\b(if\s+i\s*(get|got)\s+hired|if\s+you\s+hire\s+me|once\s+i\'?m\s+hired)\b` (3617). -/
def employmentAlts : List (List Seg) :=
  ((seqAlts
    [oneG (lit "if" ++ [Seg.ws1] ++ lit "i" ++ [Seg.ws0]),
     altG [lit "get", lit "got"], oneG [Seg.ws1], oneG (lit "hired")])
  ++ [lit "if" ++ [Seg.ws1] ++ lit "you" ++ [Seg.ws1] ++ lit "hire" ++ [Seg.ws1] ++ lit "me"]
  ++ (seqAlts
    [oneG (lit "once" ++ [Seg.ws1]), altG [lit "im", lit "i'm"],
     oneG [Seg.ws1], oneG (lit "hired")])).map bAlt

/-- Pattern `\b(i\s*(would|'d)\s*do|i\s*will\s*do)\b[\s\S]{0,40}\b(bad\s+things|something\s+bad)\b` (3608). -/
def vagueThreatAlts : List (List Seg) :=
  let g1 : List (List Seg) :=
    (seqAlts
      [oneG (lit "i" ++ [Seg.ws0]), altG [lit "would", lit "'d"],
       oneG [Seg.ws0], oneG (lit "do")])
    ++ [lit "i" ++ [Seg.ws0] ++ lit "will" ++ [Seg.ws0] ++ lit "do"]
  let g2 : List (List Seg) :=
    [lit "bad" ++ [Seg.ws1] ++ lit "things",
     lit "something" ++ [Seg.ws1] ++ lit "bad"]
  g1.flatMap (fun a =>
    g2.map (fun b =>
      Seg.bdry :: a ++ [Seg.bdry, Seg.anyUpTo 40, Seg.bdry] ++ b ++ [Seg.bdry]))

/-- Pattern `\b(pass|skip|n/?a|no\s+comment)\b` (3796, the post-parse quick check). -/
def nonAnswerQuickAlts : List (List Seg) :=
  [bAlt (lit "pass"), bAlt (lit "skip"), bAlt (lit "na"),
   bAlt (lit "n" ++ [Seg.ch '/'] ++ lit "a"),
   bAlt (lit "no" ++ [Seg.ws1] ++ lit "comment")]

/-! ### Answer classification and extraction (backend.py:3504-3570, 3772-3801) -/

/-- Word tokens `re.findall(r"[a-zA-Z']+", lower)` (3546). -/
def wordTokens (s : List Char) : List (List Char) :=
  runsBy isLetterOrApos s []

/-- Highest multiplicity of any word, `Counter(words).most_common(1)[0][1]`
(3554), with the `if words else 0` default. -/
def topCount (words : List (List Char)) : Nat :=
  words.foldl (fun m w => max m (words.count w)) 0

/-- Embeds `_is_nonsense_answer` (backend.py:3532-3566).  The three float
threshold comparisons are realized by exact cross-multiplication. -/
def _is_nonsense_answer (text : List Char) : Bool :=
  let t := _norm_text text
  if t.isEmpty then true
  else
    let lower := casefoldL t
    if reSearch nonAnswerAlts lower then true
    else if reSearch dontKnowAlts lower && decide (lower.length < 120) then true
    else if reSearch gibberishAlts lower then true
    else
      let words := wordTokens lower
      let wc := words.length
      if wc < 6 then true
      else
        let uniq := words.dedup.length
        let top := topCount words
        -- wc >= 10 and (top / wc) >= 0.45
        if 10 ≤ wc && 9 * wc ≤ 20 * top then true
        else
          let alpha := (t.filter isAsciiLetter).length
          let nonWs := (t.filter (fun c => !isWSChar c)).length
          -- non_ws > 0 and (alpha / non_ws) < 0.35
          if 0 < nonWs && 20 * alpha < 7 * nonWs then true
          -- wc >= 25 and uniq_ratio < 0.25  (uniq_ratio = uniq / max(1, wc))
          else if 25 ≤ wc && 4 * uniq < wc then true
          else false

/-- Embeds `_is_nonsense_quick` (backend.py:3792-3801), the weaker check
used after model scoring. -/
def _is_nonsense_quick (text : List Char) : Bool :=
  let lower := casefoldL (_norm_text text)
  if lower.isEmpty then true
  else if reSearch nonAnswerQuickAlts lower then true
  else if (wordTokens lower).length < 6 then true
  else false

/-- The speaker role of a conversation-history entry. -/
inductive Role where
  | interviewer
  | candidate
  deriving Repr, DecidableEq

/-- A `{"role": ..., "content": ...}` entry of `conversation_history`. -/
structure Msg where
  role : Role
  content : List Char
  deriving Repr, DecidableEq

/-- One fold step of the de-duplicating answer accumulation inside
`_extract_candidate_answers` (backend.py:3510-3527); the accumulator is
kept reversed so its head is Python's `answers[-1]`. -/
def extractStep (acc : List (List Char)) (msg : Msg) : List (List Char) :=
  if msg.role ≠ Role.candidate then acc
  else
    let t := _norm_text msg.content
    if t.isEmpty then acc
    else
      match acc with
      | [] => [t]
      | prev :: rest =>
        if subOf t prev then acc
        else if subOf prev t then t :: rest
        else t :: prev :: rest

/-- Embeds `_extract_candidate_answers` (backend.py:3507-3530); the same
code is inlined again at backend.py:3772-3790 for the post-parse cap.
`answers[-max_answers:]` keeps the last `max_answers` entries. -/
def _extract_candidate_answers (conv : List Msg) (maxAnswers : Nat) : List (List Char) :=
  let rev := conv.foldl extractStep []
  let rev := if 0 < maxAnswers && maxAnswers < rev.length then rev.take maxAnswers else rev
  rev.reverse

/-! ### Evaluation pipeline (backend.py:3480-3826) -/

/-- The fixed `scoring_version` tag (backend.py:3486). -/
def scoringVersion : String := "star_v3_guardrails_2026-01-13"

/-- Result of `evaluate_interview_performance`; `flags` models the Python
flag dict as an association list in literal order. -/
structure EvalResult where
  score : Int
  disqualified : Bool
  flags : List (String × Bool)
  scoring_version : String
  deriving Repr, DecidableEq

/-- The model's scoring response after JSON parsing succeeded and the
parsed object carries an `overall_score` (backend.py:3740).  `flags` is
the parsed `flags` dict (absent/non-dict becomes `none`), `per_answer`
the list of per-answer `professionalism` values (default 5 per entry in
the source; absent/non-list becomes `none`). -/
structure ParsedResponse where
  overall_score : Int
  flags : Option (List (String × Bool))
  per_answer : Option (List Int)
  deriving Repr, DecidableEq

/-- Python `bool(flags.get(key))` for the flag dict (backend.py:3745-3748). -/
def flagGet (fl : List (String × Bool)) (k : String) : Bool :=
  (fl.lookup k).getD false

/-- The four-key flag dict returned by the content guardrails
(backend.py:3580, 3603, 3625, 3633, 3641). -/
def contentFlags (violenceThreat : Bool) : List (String × Bool) :=
  [("unprofessional", true), ("harassment_hate", false), ("sexual", false),
   ("violence_threat", violenceThreat)]

/-- The one-key flag dict of the nonsense caps (backend.py:3654, 3657). -/
def unprofessionalFlags : List (String × Bool) := [("unprofessional", true)]

/-- The consolidated candidate answers used by the guardrails. -/
def candidateAnswersOf (conv : List Msg) (maxQuestions : Nat) : List (List Char) :=
  _extract_candidate_answers conv maxQuestions

/-- The text `candidate_text = "\n".join(candidate_answers).strip()` (backend.py:3570). -/
def candidateTextOf (conv : List Msg) (maxQuestions : Nat) : List Char :=
  stripWS (List.intercalate ['\n'] (candidateAnswersOf conv maxQuestions))

/-- The casefolded `ct = candidate_text.casefold()` (backend.py:3571). -/
def ctOf (conv : List Msg) (maxQuestions : Nat) : List Char :=
  casefoldL (candidateTextOf conv maxQuestions)

/-- The deterministic guardrail stage of `evaluate_interview_performance`
(backend.py:3501-3661): `some r` models an early `return r`, `none`
falling through to the model-based scorer.  The `try/except` wrapper of
the source can only fall through on an exception, which the embedded
total functions cannot raise. -/
def guardrailShortCircuit (conv : List Msg) (maxQuestions : Nat) : Option EvalResult :=
  let answers := candidateAnswersOf conv maxQuestions
  let ct := ctOf conv maxQuestions
  if reSearch yellAlts ct && reSearch coworkerAlts ct then
    some ⟨5, true, contentFlags false, scoringVersion⟩
  else if reSearch noWorkAlts ct || reSearch abandonAlts ct then
    some ⟨10, true, contentFlags false, scoringVersion⟩
  else if !(candidateTextOf conv maxQuestions).isEmpty then
    if reSearch violenceAlts ct then
      some ⟨5, true, contentFlags true, scoringVersion⟩
    else if reSearch unethicalAlts ct then
      some ⟨10, true, contentFlags false, scoringVersion⟩
    else if reSearch vagueThreatAlts ct && reSearch employmentAlts ct then
      some ⟨10, true, contentFlags false, scoringVersion⟩
    else if !answers.isEmpty then
      let ncount := (answers.filter _is_nonsense_answer).length
      if ncount = answers.length then
        some ⟨0, true, unprofessionalFlags, scoringVersion⟩
      else if 2 ≤ ncount then
        some ⟨5, true, unprofessionalFlags, scoringVersion⟩
      else none
    else none
  else none

/-- The floor `min(int(a.get("professionalism", 5)) for a in per) if per else 5`
(backend.py:3762). -/
def minProfOf (p : ParsedResponse) : Int :=
  match p.per_answer.getD [] with
  | [] => 5
  | a :: t => t.foldl min a

/-- The post-parse scoring branch of `evaluate_interview_performance`
(backend.py:3740-3816), entered when the model response parsed to an
object with an `overall_score`. -/
def postParseScore (conv : List Msg) (maxQuestions : Nat) (p : ParsedResponse) : EvalResult :=
  let score0 : Int := max 0 (min 100 p.overall_score)
  let flags := p.flags.getD []
  let harassmentHate := flagGet flags "harassment_hate"
  let sexual := flagGet flags "sexual"
  let violenceThreat := flagGet flags "violence_threat"
  let unprofessional := flagGet flags "unprofessional"
  let score1 := if harassmentHate || sexual || violenceThreat then min score0 15 else score0
  let disq1 := harassmentHate || sexual || violenceThreat
  let score2 := if unprofessional then min score1 35 else score1
  let score3 := if minProfOf p ≤ 1 then min score2 20 else score2
  let disq2 := if minProfOf p ≤ 1 then true else disq1
  let answers := candidateAnswersOf conv maxQuestions
  let qcount := (answers.filter _is_nonsense_quick).length
  let score4 :=
    if !answers.isEmpty && qcount = answers.length then min score3 0
    else if 2 ≤ qcount then min score3 5
    else if qcount = 1 then min score3 20
    else score3
  let disq3 :=
    if !answers.isEmpty && qcount = answers.length then true
    else if 2 ≤ qcount then true
    else disq2
  ⟨score4, disq3, flags, scoringVersion⟩

/-- Embeds `evaluate_interview_performance` (backend.py:3480-3826).  The
upstream model call is replaced by the `model` argument: `some p` models
a response that parsed (strictly or from an embedded JSON object) to a
dict containing `overall_score`; `none` models every response from which
no such object could be recovered, which in the source falls into the
conservative score-40 return at backend.py:3818-3820. -/
def evaluate_interview_performance (conv : List Msg) (maxQuestions : Nat)
    (model : Option ParsedResponse) : EvalResult :=
  if conv.isEmpty then ⟨50, false, [], scoringVersion⟩
  else
    match guardrailShortCircuit conv maxQuestions with
    | some r => r
    | none =>
      match model with
      | some p => postParseScore conv maxQuestions p
      | none => ⟨40, false, [], scoringVersion⟩

/-! ### Question-list finalization (backend.py:3878-3920) -/

/-- Embeds the validation/normalization tail of
`generate_questions_with_prompt` (backend.py:3916-3920), applied to the
already-parsed `"questions"` field of the model's JSON: `none` on input
models `parsed.get("questions")` being absent or not a list (the
`raise ValueError` path), and `none` on output models any raise.  On a
list of exactly 3 entries the source returns
`[str(q).strip() for q in questions if str(q).strip()]`. -/
def finalize_generated_questions (parsedQuestions : Option (List (List Char))) :
    Option (List (List Char)) :=
  match parsedQuestions with
  | none => none
  | some qs =>
    if qs.length ≠ 3 then none
    else some (qs.filterMap (fun q =>
      let t := stripWS q
      if t.isEmpty then none else some t))

/-! ### Transcript merger (backend.py:4030-4051) -/

/-- The overlap-search loop of `_merge_transcript` (backend.py:4046-4048):
`for k in range(n, 0, -1): if prev[-k:] == chunk[:k]: return prev + chunk[k:]`,
falling through to plain concatenation (backend.py:4051). -/
def spliceSearch (prev chunk : List Char) : Nat → List Char
  | 0 => prev ++ chunk
  | k + 1 =>
    if prev.drop (prev.length - (k + 1)) = chunk.take (k + 1) then
      prev ++ chunk.drop (k + 1)
    else spliceSearch prev chunk k

/-- Embeds `_merge_transcript` (backend.py:4030-4051). -/
def _merge_transcript (prev chunk : List Char) : List Char :=
  if chunk.isEmpty then prev
  else if prev.isEmpty then chunk
  else if subOf chunk prev then prev
  else if decide (prev.length < chunk.length) && subOf prev chunk then chunk
  else if List.isPrefixOf prev chunk then chunk
  else spliceSearch prev chunk (min 80 (min prev.length chunk.length))

/-- Largest `k ≤ n` with `prev[-k:] == chunk[:k]`, `0` if none: the
claim's "maximal overlap" notion, bounded by `n`. -/
def findOverlap (prev chunk : List Char) : Nat → Nat
  | 0 => 0
  | k + 1 =>
    if prev.drop (prev.length - (k + 1)) = chunk.take (k + 1) then k + 1
    else findOverlap prev chunk k

/-- The claim's maximal `k` such that `chunk`'s first `k` characters
equal `prev`'s last `k` characters. -/
def specMaxOverlap (prev chunk : List Char) : Nat :=
  findOverlap prev chunk (min prev.length chunk.length)

/-! ### Session state machine (backend.py:3857-4412)

The per-session mutable state of `behavioral_interview_websocket`: the
`interview_state` dict (backend.py:3858-3870) together with the closure
variables of backend.py:4085-4096.  The audio timestamps
`audio_first_ts`/`audio_last_ts` are written but never read by any
decision, and are omitted.  The two concurrent tasks interleave at
message granularity; each externally observable message is modelled as
one `Event` processed atomically by `stepFull`, which also returns the
messages sent to the client.  Final evaluation (the
`interview_complete` payload) is modelled separately by
`evaluate_interview_performance` above. -/

structure SessionState where
  questionsAsked : Nat
  answersCompleted : Nat
  maxQuestions : Nat
  questions : List (List Char)
  conversationHistory : List Msg
  candidateAnswers : List (Int × List Char)
  serverTranscripts : List (Int × List Char)
  answersRecorded : List Int
  awaitingQuestionTurnComplete : Bool
  awaitingCloseTurnComplete : Bool
  receivedAudioSinceLastTurn : Bool
  candidateTurnActive : Bool
  audioBytesSinceLastTurn : Nat
  audioChunksSinceLastTurn : Nat
  currentQuestionInFlight : Nat
  sessionDone : Bool
  deriving Repr, DecidableEq

/-- Messages the server sends to the client (only the fields the claims
mention are carried). -/
inductive ClientMsg where
  | question (questionNumber totalQuestions : Nat) (content : List Char)
  | turnCompleteMsg (questionNumber totalQuestions : Nat)
  | resumeListening (reason : String)
  | reviewing
  | interviewComplete
  deriving Repr, DecidableEq

/-- Externally observable events driving one session, as processed by the
`receive_from_gemini` and `send_to_gemini` loops:
* `upstreamTurnComplete` — `response.server_content.turn_complete` (4227);
* `serverTranscriptDone text` — an input-transcription stream whose
  `finished` marker arrived with merged text `text` (4184-4185);
* `clientTranscriptFinal qn text` — a `transcript_final` message (4290);
  `qn = none` models a `question_number` on which `int()` raised;
* `clientAudio nbytes` — an `audio` message carrying `nbytes` decoded
  bytes (4300);
* `clientEndOfTurn hadSpeech` — an `end_of_turn` message (4322);
  `hadSpeech = none` models an absent `had_speech` field. -/
inductive Event where
  | upstreamTurnComplete
  | serverTranscriptDone (text : List Char)
  | clientTranscriptFinal (qn : Option Int) (text : List Char)
  | clientAudio (nbytes : Nat)
  | clientEndOfTurn (hadSpeech : Option Bool)
  deriving Repr, DecidableEq

/-- Association-list lookup (Python `dict.get`). -/
def lookupA : List (Int × List Char) → Int → Option (List Char)
  | [], _ => none
  | (k, v) :: t, m => if m = k then some v else lookupA t m

/-- Replace the binding of `k` (or append it), Python dict assignment on
an association list. -/
def setAssoc (m : List (Int × List Char)) (k : Int) (v : List Char) : List (Int × List Char) :=
  if (lookupA m k).isSome then m.map (fun p => if p.1 = k then (k, v) else p)
  else m ++ [(k, v)]

/-- Embeds `_store_candidate_transcript` (backend.py:4056-4062). -/
def _store_candidate_transcript (s : SessionState) (questionNumber : Int)
    (text : List Char) : SessionState :=
  if ¬ 0 < questionNumber then s
  else
    let normalized := _norm_text text
    if normalized.isEmpty then s
    else { s with candidateAnswers := setAssoc s.candidateAnswers questionNumber normalized }

/-- Embeds `_record_candidate_answer` (backend.py:4064-4083). -/
def _record_candidate_answer (s : SessionState) (questionNumber : Int) : SessionState :=
  if ¬ 0 < questionNumber then s
  else if questionNumber ∈ s.answersRecorded then s
  else
    let text0 := (lookupA s.candidateAnswers questionNumber).getD []
    let text1 := if text0.isEmpty then (lookupA s.serverTranscripts questionNumber).getD [] else text0
    let text2 := _norm_text text1
    let text3 := if text2.isEmpty then "[inaudible]".toList else text2
    { s with
      conversationHistory := s.conversationHistory ++ [⟨Role.candidate, text3⟩],
      answersRecorded := s.answersRecorded ++ [questionNumber] }

/-- Embeds `_send_canonical_question` (backend.py:4098-4137).  `none`
models the two `raise ValueError` guards, both of which fire before any
state mutation; the upstream `send_realtime_input` call is external
I/O. -/
def _send_canonical_question (s : SessionState) (questionNumber : Nat) :
    Option (SessionState × List ClientMsg) :=
  if questionNumber = 0 ∨ s.questions.length < questionNumber then none
  else if s.maxQuestions < questionNumber then none
  else
    let qText := s.questions.getD (questionNumber - 1) []
    some
      ({ s with
          conversationHistory := s.conversationHistory ++ [⟨Role.interviewer, qText⟩],
          currentQuestionInFlight := questionNumber,
          awaitingQuestionTurnComplete := true,
          questionsAsked := max s.questionsAsked questionNumber },
       [ClientMsg.question questionNumber s.maxQuestions qText])

/-- Constant `MIN_AUDIO_MS` (backend.py:4285). -/
def minAudioMs : Nat := 900

/-- Constant `MIN_AUDIO_CHUNKS` (backend.py:4286). -/
def minAudioChunks : Nat := 3

/-- Milliseconds `int((audio_bytes / (2 * 16000)) * 1000)` (backend.py:4349), exact
for 16 kHz mono PCM16; the `if audio_bytes else 0` guard coincides with
the formula at 0. -/
def audioMsOf (audioBytes : Nat) : Nat :=
  audioBytes * 1000 / 32000

/-- The commit block of a successful `end_of_turn` (backend.py:4368-4388):
deactivate the candidate turn, record the answer, count it if audio was
streamed, and reset the per-turn audio counters. -/
def endOfTurnCommit (s : SessionState) : SessionState :=
  let answeredQ := s.currentQuestionInFlight
  let s1 := { s with candidateTurnActive := false }
  let s2 := _record_candidate_answer s1 (answeredQ : Int)
  let s3 :=
    if s2.receivedAudioSinceLastTurn then
      { s2 with receivedAudioSinceLastTurn := false,
                answersCompleted := s2.answersCompleted + 1 }
    else s2
  { s3 with audioBytesSinceLastTurn := 0, audioChunksSinceLastTurn := 0 }

/-- The advance block of a successful `end_of_turn` (backend.py:4390-4401):
send the next canonical question or move to the closing statement.  A
`_send_canonical_question` raise leaves the mutations already performed
in place and kills the inbound loop, modelled as keeping the pre-call
state. -/
def endOfTurnAdvance (s4 : SessionState) : SessionState × List ClientMsg :=
  if s4.answersCompleted < s4.maxQuestions then
    match _send_canonical_question s4 (s4.answersCompleted + 1) with
    | some (s5, out) => (s5, out)
    | none => (s4, [])
  else
    ({ s4 with awaitingCloseTurnComplete := true, awaitingQuestionTurnComplete := false },
     [])

/-- One step of the session: process one event, returning the new state
and the messages sent to the client.  Mirrors the branch structure of
`receive_from_gemini` (backend.py:4143-4264) and `send_to_gemini`
(backend.py:4276-4401). -/
def stepFull (s : SessionState) (e : Event) : SessionState × List ClientMsg :=
  match e with
  | Event.upstreamTurnComplete =>
    if s.awaitingQuestionTurnComplete then
      ({ s with awaitingQuestionTurnComplete := false, candidateTurnActive := true },
       [ClientMsg.turnCompleteMsg s.currentQuestionInFlight s.maxQuestions])
    else if s.awaitingCloseTurnComplete then
      ({ s with sessionDone := true }, [ClientMsg.reviewing, ClientMsg.interviewComplete])
    else (s, [])
  | Event.serverTranscriptDone text =>
    ({ s with serverTranscripts := setAssoc s.serverTranscripts s.currentQuestionInFlight text },
     [])
  | Event.clientTranscriptFinal qn text =>
    let q := qn.getD (s.currentQuestionInFlight : Int)
    (_store_candidate_transcript s q text, [])
  | Event.clientAudio nbytes =>
    if ¬ s.candidateTurnActive then (s, [])
    else
      ({ s with
          receivedAudioSinceLastTurn := true,
          audioBytesSinceLastTurn := s.audioBytesSinceLastTurn + nbytes,
          audioChunksSinceLastTurn := s.audioChunksSinceLastTurn + 1 },
       [])
  | Event.clientEndOfTurn hadSpeech =>
    if ¬ s.candidateTurnActive then (s, [])
    else if hadSpeech = some false then
      ({ s with
          receivedAudioSinceLastTurn := false,
          audioBytesSinceLastTurn := 0,
          audioChunksSinceLastTurn := 0 },
       [ClientMsg.resumeListening "no_speech"])
    else if audioMsOf s.audioBytesSinceLastTurn < minAudioMs
        ∨ s.audioChunksSinceLastTurn < minAudioChunks then
      ({ s with
          receivedAudioSinceLastTurn := false,
          audioBytesSinceLastTurn := 0,
          audioChunksSinceLastTurn := 0 },
       [ClientMsg.resumeListening "too_short"])
    else endOfTurnAdvance (endOfTurnCommit s)

/-- The state after one step. -/
def stepState (s : SessionState) (e : Event) : SessionState :=
  (stepFull s e).1

/-- Fold a list of events through the step function. -/
def runEvents (s : SessionState) (evs : List Event) : SessionState :=
  evs.foldl stepState s

/-- The session state as initialized at backend.py:3858-3870 and
4085-4096, before question 1 is sent. -/
def initialState (questions : List (List Char)) : SessionState where
  questionsAsked := 0
  answersCompleted := 0
  maxQuestions := 3
  questions := questions
  conversationHistory := []
  candidateAnswers := []
  serverTranscripts := []
  answersRecorded := []
  awaitingQuestionTurnComplete := true
  awaitingCloseTurnComplete := false
  receivedAudioSinceLastTurn := false
  candidateTurnActive := false
  audioBytesSinceLastTurn := 0
  audioChunksSinceLastTurn := 0
  currentQuestionInFlight := 0
  sessionDone := false

/-- Session start: `_send_canonical_question(1)` (backend.py:4140); a
raise there aborts the session before any event is processed. -/
def startSession (questions : List (List Char)) : Option SessionState :=
  (_send_canonical_question (initialState questions) 1).map Prod.fst

/-! ### Lemmas about the overlap search -/

theorem findOverlap_le (p c : List Char) : ∀ n, findOverlap p c n ≤ n := by
  intro n
  induction n with
  | zero => simp [findOverlap]
  | succ k ih =>
    unfold findOverlap
    split
    · exact Nat.le_refl _
    · exact Nat.le_succ_of_le ih

theorem findOverlap_none_above (p c : List Char) :
    ∀ n j, findOverlap p c n < j → j ≤ n → p.drop (p.length - j) ≠ c.take j := by
  intro n
  induction n with
  | zero => intro j h1 h2; omega
  | succ k ih =>
    intro j h1 h2
    unfold findOverlap at h1
    by_cases hm : p.drop (p.length - (k + 1)) = c.take (k + 1)
    · rw [if_pos hm] at h1; omega
    · rw [if_neg hm] at h1
      rcases Nat.lt_or_ge j (k + 1) with hj | hj
      · exact ih j h1 (by omega)
      · have hjk : j = k + 1 := by omega
        subst hjk
        exact hm

theorem findOverlap_stable (p c : List Char) :
    ∀ m n, n ≤ m → (∀ j, n < j → j ≤ m → p.drop (p.length - j) ≠ c.take j) →
      findOverlap p c m = findOverlap p c n := by
  intro m
  induction m with
  | zero =>
    intro n h1 _
    have : n = 0 := by omega
    subst this; rfl
  | succ k ih =>
    intro n h1 h2
    rcases Nat.lt_or_ge n (k + 1) with hn | hn
    · have hnm : p.drop (p.length - (k + 1)) ≠ c.take (k + 1) :=
        h2 (k + 1) (by omega) (Nat.le_refl _)
      have hstep : findOverlap p c (k + 1) = findOverlap p c k := by
        simp only [findOverlap, if_neg hnm]
      rw [hstep]
      exact ih n (by omega) (fun j hj1 hj2 => h2 j hj1 (by omega))
    · have : n = k + 1 := by omega
      subst this; rfl

theorem spliceSearch_eq (p c : List Char) :
    ∀ n, spliceSearch p c n = p ++ c.drop (findOverlap p c n) := by
  intro n
  induction n with
  | zero => simp [spliceSearch, findOverlap]
  | succ k ih =>
    by_cases h : p.drop (p.length - (k + 1)) = c.take (k + 1)
    · simp only [spliceSearch, findOverlap, if_pos h]
    · simp only [spliceSearch, findOverlap, if_neg h]
      exact ih

/-- C3, counterexample: the claim "for every pair of strings `p`, `c`,
where `k` is the maximal `k` such that `c`'s first `k` characters equal
`p`'s last `k` characters, `merge(p, c) == p + c[k:]`" fails at
`p = "ab"`, `c = "a"`: the maximal such `k` is `0`, so the claim demands
`"aba"`, but the duplicate-suppression branch (`chunk in prev`,
backend.py:4036-4037) returns `"ab"`. -/
theorem merge_suffix_claim_cex :
    _merge_transcript "ab".toList "a".toList ≠
      "ab".toList ++ List.drop (specMaxOverlap "ab".toList "a".toList) "a".toList := by
  decide

/-- C3, amended: for nonempty `p`, `c` such that neither is a substring
of the other and the maximal overlap `k` is at most the source's
80-character search window, `_merge_transcript p c = p ++ c[k:]`. -/
theorem merge_suffix_amended (p c : List Char) (hc : c ≠ []) (hp : p ≠ [])
    (h1 : subOf c p = false) (h2 : subOf p c = false)
    (h3 : specMaxOverlap p c ≤ 80) :
    _merge_transcript p c = p ++ List.drop (specMaxOverlap p c) c := by
  have hcE : c.isEmpty = false := by
    cases c with
    | nil => exact absurd rfl hc
    | cons d t => rfl
  have hpE : p.isEmpty = false := by
    cases p with
    | nil => exact absurd rfl hp
    | cons d t => rfl
  have hpc : List.isPrefixOf p c = false := by
    cases c with
    | nil => exact absurd rfl hc
    | cons d t =>
      unfold subOf at h2
      by_cases hpp : List.isPrefixOf p (d :: t)
      · rw [if_pos hpp] at h2
        exact absurd h2 (by simp)
      · exact Bool.eq_false_iff.mpr hpp
  have hsub : (decide (p.length < c.length) && subOf p c) = false := by
    rw [h2, Bool.and_false]
  unfold _merge_transcript
  rw [hcE, hpE, h1, hsub, hpc]
  simp only [Bool.false_eq_true, if_false]
  rw [spliceSearch_eq]
  have h3' : findOverlap p c (min p.length c.length) ≤ 80 := h3
  have hstab : findOverlap p c (min p.length c.length) =
      findOverlap p c (min 80 (min p.length c.length)) := by
    apply findOverlap_stable
    · omega
    · intro j hj1 hj2
      apply findOverlap_none_above p c (min p.length c.length) j _ hj2
      omega
  unfold specMaxOverlap
  rw [hstab]

/-- C3, witness for the amended theorem at `p = "hello wor"`,
`c = "world"` (overlap `k = 3`). -/
theorem merge_suffix_amended_check :
    _merge_transcript "hello wor".toList "world".toList =
      "hello wor".toList ++
        List.drop (specMaxOverlap "hello wor".toList "world".toList) "world".toList :=
  merge_suffix_amended "hello wor".toList "world".toList (by decide) (by decide)
    (by decide) (by decide) (by decide)

/-! ### Effect lemmas for the session operations -/

theorem store_effect (s : SessionState) (q : Int) (t : List Char) :
    (_store_candidate_transcript s q t).questionsAsked = s.questionsAsked ∧
    (_store_candidate_transcript s q t).answersCompleted = s.answersCompleted ∧
    (_store_candidate_transcript s q t).maxQuestions = s.maxQuestions ∧
    (_store_candidate_transcript s q t).questions = s.questions ∧
    (_store_candidate_transcript s q t).conversationHistory = s.conversationHistory ∧
    (_store_candidate_transcript s q t).answersRecorded = s.answersRecorded ∧
    (_store_candidate_transcript s q t).awaitingQuestionTurnComplete
      = s.awaitingQuestionTurnComplete ∧
    (_store_candidate_transcript s q t).awaitingCloseTurnComplete
      = s.awaitingCloseTurnComplete ∧
    (_store_candidate_transcript s q t).candidateTurnActive = s.candidateTurnActive := by
  unfold _store_candidate_transcript
  split
  · simp
  · simp only [List.isEmpty_iff]
    split <;> simp

theorem record_effect (s : SessionState) (q : Int) :
    (_record_candidate_answer s q).questionsAsked = s.questionsAsked ∧
    (_record_candidate_answer s q).answersCompleted = s.answersCompleted ∧
    (_record_candidate_answer s q).maxQuestions = s.maxQuestions ∧
    (_record_candidate_answer s q).questions = s.questions ∧
    (_record_candidate_answer s q).awaitingQuestionTurnComplete
      = s.awaitingQuestionTurnComplete ∧
    (_record_candidate_answer s q).awaitingCloseTurnComplete = s.awaitingCloseTurnComplete ∧
    (_record_candidate_answer s q).candidateTurnActive = s.candidateTurnActive ∧
    (_record_candidate_answer s q).receivedAudioSinceLastTurn
      = s.receivedAudioSinceLastTurn := by
  unfold _record_candidate_answer
  repeat' split
  all_goals simp

theorem record_noop_of_mem (s : SessionState) (q : Int) (h : q ∈ s.answersRecorded) :
    _record_candidate_answer s q = s := by
  unfold _record_candidate_answer
  split_ifs
  · rfl
  · rfl

theorem record_fresh (s : SessionState) (q : Int) (h1 : 0 < q)
    (h2 : q ∉ s.answersRecorded) :
    ∃ t, _record_candidate_answer s q =
      { s with
        conversationHistory := s.conversationHistory ++ [⟨Role.candidate, t⟩],
        answersRecorded := s.answersRecorded ++ [q] } := by
  unfold _record_candidate_answer
  rw [if_neg (by omega), if_neg h2]
  exact ⟨_, rfl⟩

theorem send_some (s : SessionState) (n : Nat) (s' : SessionState) (out : List ClientMsg)
    (h : _send_canonical_question s n = some (s', out)) :
    s' = { s with
            conversationHistory :=
              s.conversationHistory ++ [⟨Role.interviewer, s.questions.getD (n - 1) []⟩],
            currentQuestionInFlight := n,
            awaitingQuestionTurnComplete := true,
            questionsAsked := max s.questionsAsked n }
      ∧ n ≤ s.maxQuestions ∧ 0 < n ∧ n ≤ s.questions.length := by
  unfold _send_canonical_question at h
  split at h
  · exact absurd h (by simp)
  · split at h
    · exact absurd h (by simp)
    · rename_i hrange hmax
      simp only [Option.some.injEq, Prod.mk.injEq] at h
      refine ⟨h.1.symm, by omega, by omega, by omega⟩

theorem commit_effect (s : SessionState) :
    (endOfTurnCommit s).questionsAsked = s.questionsAsked ∧
    ((endOfTurnCommit s).answersCompleted = s.answersCompleted ∨
      (endOfTurnCommit s).answersCompleted = s.answersCompleted + 1) ∧
    (endOfTurnCommit s).maxQuestions = s.maxQuestions ∧
    (endOfTurnCommit s).questions = s.questions ∧
    (endOfTurnCommit s).candidateTurnActive = false ∧
    (endOfTurnCommit s).awaitingQuestionTurnComplete = s.awaitingQuestionTurnComplete ∧
    (endOfTurnCommit s).awaitingCloseTurnComplete = s.awaitingCloseTurnComplete := by
  obtain ⟨r1, r2, r3, r4, r5, r6, r7, r8⟩ :=
    record_effect { s with candidateTurnActive := false } (s.currentQuestionInFlight : Int)
  unfold endOfTurnCommit
  dsimp only
  split <;> simp_all

/-- Inductive invariant of the session state machine (used for C1):
counter bounds plus the bookkeeping facts that make them inductive. -/
def SessionInv (s : SessionState) : Prop :=
  s.answersCompleted ≤ s.questionsAsked ∧
  s.questionsAsked ≤ s.maxQuestions ∧
  s.maxQuestions = 3 ∧
  ((s.candidateTurnActive = true ∨ s.awaitingQuestionTurnComplete = true) →
    s.answersCompleted < s.questionsAsked) ∧
  (s.candidateTurnActive = true → s.awaitingQuestionTurnComplete = false)

theorem sessionInv_step (s : SessionState) (e : Event) (h : SessionInv s) :
    SessionInv (stepState s e) := by
  obtain ⟨h1, h2, h3, h4, h5⟩ := h
  cases e with
  | upstreamTurnComplete =>
    simp only [stepState, stepFull]
    split
    · rename_i hq
      exact ⟨h1, h2, h3, fun _ => h4 (Or.inr hq), fun _ => rfl⟩
    · split
      · exact ⟨h1, h2, h3, h4, h5⟩
      · exact ⟨h1, h2, h3, h4, h5⟩
  | serverTranscriptDone text =>
    exact ⟨h1, h2, h3, h4, h5⟩
  | clientTranscriptFinal qn text =>
    simp only [stepState, stepFull]
    obtain ⟨e1, e2, e3, _, _, _, e7, _, e9⟩ :=
      store_effect s (qn.getD (s.currentQuestionInFlight : Int)) text
    unfold SessionInv
    rw [e1, e2, e3, e7, e9]
    exact ⟨h1, h2, h3, h4, h5⟩
  | clientAudio n =>
    simp only [stepState, stepFull]
    split
    · exact ⟨h1, h2, h3, h4, h5⟩
    · exact ⟨h1, h2, h3, h4, h5⟩
  | clientEndOfTurn hs =>
    simp only [stepState, stepFull]
    split
    · exact ⟨h1, h2, h3, h4, h5⟩
    · rename_i hActiveNeg
      have hA : s.candidateTurnActive = true := by
        by_contra hx
        exact hActiveNeg hx
      have hlt : s.answersCompleted < s.questionsAsked := h4 (Or.inl hA)
      have hAw : s.awaitingQuestionTurnComplete = false := h5 hA
      split
      · exact ⟨h1, h2, h3, h4, h5⟩
      · split
        · exact ⟨h1, h2, h3, h4, h5⟩
        · obtain ⟨c1, c2, c3, _, c5, c6, c7⟩ := commit_effect s
          have hac : (endOfTurnCommit s).answersCompleted ≤ s.questionsAsked := by
            rcases c2 with hc2 | hc2 <;> omega
          unfold endOfTurnAdvance
          split
          · rename_i hless
            split
            · rename_i s5 out hsend
              obtain ⟨hs5, hle, hpos, _⟩ := send_some _ _ _ _ hsend
              subst hs5
              refine ⟨?_, ?_, ?_, ?_, ?_⟩ <;> simp_all
            · refine ⟨?_, ?_, ?_, ?_, ?_⟩ <;> simp_all
          · refine ⟨?_, ?_, ?_, ?_, ?_⟩ <;> simp_all

theorem step_mono (s : SessionState) (e : Event) :
    s.answersCompleted ≤ (stepState s e).answersCompleted ∧
    s.questionsAsked ≤ (stepState s e).questionsAsked := by
  cases e with
  | upstreamTurnComplete =>
    simp only [stepState, stepFull]
    split
    · exact ⟨Nat.le_refl _, Nat.le_refl _⟩
    · split
      · exact ⟨Nat.le_refl _, Nat.le_refl _⟩
      · exact ⟨Nat.le_refl _, Nat.le_refl _⟩
  | serverTranscriptDone text => exact ⟨Nat.le_refl _, Nat.le_refl _⟩
  | clientTranscriptFinal qn text =>
    simp only [stepState, stepFull]
    obtain ⟨e1, e2, _⟩ := store_effect s (qn.getD (s.currentQuestionInFlight : Int)) text
    constructor <;> omega
  | clientAudio n =>
    simp only [stepState, stepFull]
    split
    · exact ⟨Nat.le_refl _, Nat.le_refl _⟩
    · exact ⟨Nat.le_refl _, Nat.le_refl _⟩
  | clientEndOfTurn hs =>
    simp only [stepState, stepFull]
    split
    · exact ⟨Nat.le_refl _, Nat.le_refl _⟩
    · split
      · exact ⟨Nat.le_refl _, Nat.le_refl _⟩
      · split
        · exact ⟨Nat.le_refl _, Nat.le_refl _⟩
        · obtain ⟨c1, c2, c3, _, _, _, _⟩ := commit_effect s
          rcases c2 with c2 | c2 <;>
          · unfold endOfTurnAdvance
            split
            · split
              · rename_i s5 out hsend
                obtain ⟨hs5, _, _, _⟩ := send_some _ _ _ _ hsend
                subst hs5
                constructor <;> simp_all
              · constructor <;> dsimp only <;> omega
            · constructor <;> simp_all

theorem runEvents_preserve (P : SessionState → Prop)
    (hstep : ∀ s e, P s → P (stepState s e)) :
    ∀ evs s, P s → P (runEvents s evs) := by
  intro evs
  induction evs with
  | nil => intro s hs; exact hs
  | cons e t ih => intro s hs; exact ih (stepState s e) (hstep s e hs)

theorem startSession_inv (qs : List (List Char)) (s0 : SessionState)
    (h : startSession qs = some s0) : SessionInv s0 := by
  unfold startSession at h
  cases hsend : _send_canonical_question (initialState qs) 1 with
  | none => rw [hsend] at h; exact absurd h (by simp)
  | some p =>
    rw [hsend] at h
    simp only [Option.map] at h
    injection h with h
    obtain ⟨s', out⟩ := p
    obtain ⟨hs', _, _, _⟩ := send_some _ _ _ _ hsend
    have hns : s0 = s' := h.symm
    subst hns
    subst hs'
    refine ⟨?_, ?_, ?_, ?_, ?_⟩ <;> simp [initialState]

/-- C1: for every session whose start succeeded and every event
sequence, after the run and after one further event of any kind the
counters satisfy `answers_completed ≤ questions_asked ≤ 3`, and both
counters are monotonically non-decreasing across the extra step. -/
theorem turn_monotonicity (qs : List (List Char)) (s0 : SessionState)
    (h : startSession qs = some s0) (evs : List Event) (e : Event) :
    (runEvents s0 evs).answersCompleted ≤ (runEvents s0 evs).questionsAsked ∧
    (runEvents s0 evs).questionsAsked ≤ 3 ∧
    (runEvents s0 evs).answersCompleted ≤ (stepState (runEvents s0 evs) e).answersCompleted ∧
    (runEvents s0 evs).questionsAsked ≤ (stepState (runEvents s0 evs) e).questionsAsked ∧
    (stepState (runEvents s0 evs) e).answersCompleted
      ≤ (stepState (runEvents s0 evs) e).questionsAsked ∧
    (stepState (runEvents s0 evs) e).questionsAsked ≤ 3 := by
  have hinv : SessionInv (runEvents s0 evs) :=
    runEvents_preserve SessionInv sessionInv_step evs s0 (startSession_inv qs s0 h)
  have hinv2 : SessionInv (stepState (runEvents s0 evs) e) :=
    sessionInv_step _ e hinv
  have hmono := step_mono (runEvents s0 evs) e
  obtain ⟨a1, a2, a3, _, _⟩ := hinv
  obtain ⟨b1, b2, b3, _, _⟩ := hinv2
  exact ⟨a1, by omega, hmono.1, hmono.2, b1, by omega⟩

/-- The built-in fallback question set (backend.py:3971-3975). -/
def demoQuestions : List (List Char) :=
  ["Tell me about a time you faced a challenging problem at work or school. What did you do and what was the outcome?".toList,
   "Describe a time you had to work with a difficult teammate or resolve a conflict. How did you handle it?".toList,
   "Tell me about a time you took initiative or led a project. What actions did you take and what did you learn?".toList]

/-- The started session over the fallback questions, used as a concrete
witness state. -/
def demoStart : SessionState :=
  (startSession demoQuestions).getD (initialState demoQuestions)

/-- A concrete event sequence: question 1 delivered, three audio chunks,
a successful end of turn. -/
def demoEvents : List Event :=
  [Event.upstreamTurnComplete, Event.clientAudio 16000, Event.clientAudio 16000,
   Event.clientAudio 16000, Event.clientEndOfTurn (some true)]

/-- C1, witness: the bounds and monotonicity at the concrete run. -/
theorem turn_monotonicity_check :
    (runEvents demoStart demoEvents).answersCompleted
      ≤ (runEvents demoStart demoEvents).questionsAsked ∧
    (runEvents demoStart demoEvents).questionsAsked ≤ 3 ∧
    (runEvents demoStart demoEvents).answersCompleted
      ≤ (stepState (runEvents demoStart demoEvents) Event.upstreamTurnComplete).answersCompleted ∧
    (runEvents demoStart demoEvents).questionsAsked
      ≤ (stepState (runEvents demoStart demoEvents) Event.upstreamTurnComplete).questionsAsked ∧
    (stepState (runEvents demoStart demoEvents) Event.upstreamTurnComplete).answersCompleted
      ≤ (stepState (runEvents demoStart demoEvents) Event.upstreamTurnComplete).questionsAsked ∧
    (stepState (runEvents demoStart demoEvents) Event.upstreamTurnComplete).questionsAsked ≤ 3 :=
  turn_monotonicity demoQuestions demoStart (by rfl) demoEvents Event.upstreamTurnComplete

/-! ### At-most-once commit bookkeeping (C2) -/

/-- Number of candidate entries in a conversation history. -/
def candCount (hist : List Msg) : Nat :=
  (hist.filter (fun m => decide (m.role = Role.candidate))).length

/-- Bookkeeping invariant for the at-most-once commit: the recorded set
has no duplicates and every candidate entry of the history is accounted
for by exactly one recorded question number. -/
def RecordGood (s : SessionState) : Prop :=
  s.answersRecorded.Nodup ∧ candCount s.conversationHistory = s.answersRecorded.length

theorem record_noop_of_nonpos (s : SessionState) (q : Int) (h : ¬ 0 < q) :
    _record_candidate_answer s q = s := by
  unfold _record_candidate_answer
  split_ifs
  rfl

theorem record_good (s : SessionState) (q : Int) (hg : RecordGood s) :
    RecordGood (_record_candidate_answer s q) := by
  rcases Decidable.em ((0 : Int) < q) with h1 | h1
  · rcases Decidable.em (q ∈ s.answersRecorded) with h2 | h2
    · rw [record_noop_of_mem s q h2]; exact hg
    · obtain ⟨t, ht⟩ := record_fresh s q h1 h2
      rw [ht]
      obtain ⟨g1, g2⟩ := hg
      refine ⟨?_, ?_⟩
      · simp [List.nodup_append, g1, h2]
      · simp [candCount, List.filter_append, g2, candCount] at g2 ⊢
        omega
  · rw [record_noop_of_nonpos s q h1]; exact hg

theorem recordGood_step (s : SessionState) (e : Event) (hg : RecordGood s) :
    RecordGood (stepState s e) := by
  obtain ⟨g1, g2⟩ := hg
  cases e with
  | upstreamTurnComplete =>
    simp only [stepState, stepFull]
    split
    · exact ⟨g1, g2⟩
    · split
      · exact ⟨g1, g2⟩
      · exact ⟨g1, g2⟩
  | serverTranscriptDone text => exact ⟨g1, g2⟩
  | clientTranscriptFinal qn text =>
    simp only [stepState, stepFull]
    obtain ⟨_, _, _, _, e5, e6, _, _, _⟩ :=
      store_effect s (qn.getD (s.currentQuestionInFlight : Int)) text
    unfold RecordGood
    rw [e5, e6]
    exact ⟨g1, g2⟩
  | clientAudio n =>
    simp only [stepState, stepFull]
    split
    · exact ⟨g1, g2⟩
    · exact ⟨g1, g2⟩
  | clientEndOfTurn hs =>
    simp only [stepState, stepFull]
    split
    · exact ⟨g1, g2⟩
    · split
      · exact ⟨g1, g2⟩
      · split
        · exact ⟨g1, g2⟩
        · have hcommit : RecordGood (endOfTurnCommit s) := by
            have hrec : RecordGood
                (_record_candidate_answer { s with candidateTurnActive := false }
                  (s.currentQuestionInFlight : Int)) :=
              record_good { s with candidateTurnActive := false }
                (s.currentQuestionInFlight : Int) ⟨g1, g2⟩
            unfold endOfTurnCommit
            dsimp only
            split
            · exact hrec
            · exact hrec
          obtain ⟨c1, c2⟩ := hcommit
          unfold endOfTurnAdvance
          split
          · split
            · rename_i s5 out hsend
              obtain ⟨hs5, _, _, _⟩ := send_some _ _ _ _ hsend
              subst hs5
              refine ⟨c1, ?_⟩
              simp [candCount, List.filter_append] at c2 ⊢
              omega
            · exact ⟨c1, c2⟩
          · exact ⟨c1, c2⟩

/-- C2: along any run of a started session, the recorded set stays
duplicate-free, the number of candidate entries in the history equals
the number of recorded question numbers (so every question number
contributes at most one candidate entry over the whole session), and a
repeated commit for an already-recorded question number leaves the
whole state — in particular `conversation_history` and
`answers_recorded` — unchanged. -/
theorem at_most_once_commit (qs : List (List Char)) (s0 : SessionState)
    (h : startSession qs = some s0) (evs : List Event) (n : Int) :
    (runEvents s0 evs).answersRecorded.Nodup ∧
    candCount (runEvents s0 evs).conversationHistory
      = (runEvents s0 evs).answersRecorded.length ∧
    (n ∈ (runEvents s0 evs).answersRecorded →
      _record_candidate_answer (runEvents s0 evs) n = runEvents s0 evs) := by
  have hstart : RecordGood s0 := by
    unfold startSession at h
    cases hsend : _send_canonical_question (initialState qs) 1 with
    | none => rw [hsend] at h; exact absurd h (by simp)
    | some p =>
      rw [hsend] at h
      simp only [Option.map] at h
      injection h with h
      obtain ⟨s', out⟩ := p
      obtain ⟨hs', _, _, _⟩ := send_some _ _ _ _ hsend
      have hns : s0 = s' := h.symm
      subst hns
      subst hs'
      refine ⟨?_, ?_⟩ <;> simp [initialState, candCount]
  have hgood : RecordGood (runEvents s0 evs) :=
    runEvents_preserve RecordGood recordGood_step evs s0 hstart
  exact ⟨hgood.1, hgood.2, fun hmem => record_noop_of_mem _ n hmem⟩

/-- C2, witness: the bookkeeping facts and the no-op of a second commit
for question 1 at the concrete run (which has recorded question 1). -/
theorem at_most_once_commit_check :
    (runEvents demoStart demoEvents).answersRecorded.Nodup ∧
    candCount (runEvents demoStart demoEvents).conversationHistory
      = (runEvents demoStart demoEvents).answersRecorded.length ∧
    ((1 : Int) ∈ (runEvents demoStart demoEvents).answersRecorded →
      _record_candidate_answer (runEvents demoStart demoEvents) 1
        = runEvents demoStart demoEvents) :=
  at_most_once_commit demoQuestions demoStart (by rfl) demoEvents 1

/-- C7: during an answering turn, an `end_of_turn` with
`had_speech = false` leaves the session awaiting the same answer and
emits `resume_listening` with reason `"no_speech"` — unconditionally,
however much audio has accumulated, since the source checks
`had_speech is False` before the length floor (backend.py:4329); an
`end_of_turn` without `had_speech = false` but with audio below the
900 ms / 3 chunk floor does the same with reason `"too_short"`.  In
both cases `questions_asked`, `answers_completed`,
`conversation_history`, the active turn and the in-flight question
number are unchanged. -/
theorem self_loop_insufficient_input (s : SessionState)
    (hA : s.candidateTurnActive = true) (hadSpeech : Option Bool) :
    (stepFull s (Event.clientEndOfTurn (some false)) =
      ({ s with receivedAudioSinceLastTurn := false, audioBytesSinceLastTurn := 0,
                audioChunksSinceLastTurn := 0 },
       [ClientMsg.resumeListening "no_speech"]) ∧
     (stepState s (Event.clientEndOfTurn (some false))).candidateTurnActive = true ∧
     (stepState s (Event.clientEndOfTurn (some false))).currentQuestionInFlight
       = s.currentQuestionInFlight ∧
     (stepState s (Event.clientEndOfTurn (some false))).questionsAsked = s.questionsAsked ∧
     (stepState s (Event.clientEndOfTurn (some false))).answersCompleted
       = s.answersCompleted ∧
     (stepState s (Event.clientEndOfTurn (some false))).conversationHistory
       = s.conversationHistory) ∧
    (hadSpeech ≠ some false →
      (audioMsOf s.audioBytesSinceLastTurn < minAudioMs
        ∨ s.audioChunksSinceLastTurn < minAudioChunks) →
      stepFull s (Event.clientEndOfTurn hadSpeech) =
        ({ s with receivedAudioSinceLastTurn := false, audioBytesSinceLastTurn := 0,
                  audioChunksSinceLastTurn := 0 },
         [ClientMsg.resumeListening "too_short"]) ∧
      (stepState s (Event.clientEndOfTurn hadSpeech)).candidateTurnActive = true ∧
      (stepState s (Event.clientEndOfTurn hadSpeech)).currentQuestionInFlight
        = s.currentQuestionInFlight ∧
      (stepState s (Event.clientEndOfTurn hadSpeech)).questionsAsked = s.questionsAsked ∧
      (stepState s (Event.clientEndOfTurn hadSpeech)).answersCompleted
        = s.answersCompleted ∧
      (stepState s (Event.clientEndOfTurn hadSpeech)).conversationHistory
        = s.conversationHistory) := by
  have h1 : stepFull s (Event.clientEndOfTurn (some false)) =
      ({ s with receivedAudioSinceLastTurn := false, audioBytesSinceLastTurn := 0,
                audioChunksSinceLastTurn := 0 },
       [ClientMsg.resumeListening "no_speech"]) := by
    simp only [stepFull]
    rw [if_neg (by simp [hA]), if_pos trivial]
  constructor
  · refine ⟨h1, ?_, ?_, ?_, ?_, ?_⟩
    · simp only [stepState, h1]; exact hA
    · simp only [stepState, h1]
    · simp only [stepState, h1]
    · simp only [stepState, h1]
    · simp only [stepState, h1]
  · intro hns hfloor
    have h2 : stepFull s (Event.clientEndOfTurn hadSpeech) =
        ({ s with receivedAudioSinceLastTurn := false, audioBytesSinceLastTurn := 0,
                  audioChunksSinceLastTurn := 0 },
         [ClientMsg.resumeListening "too_short"]) := by
      simp only [stepFull]
      rw [if_neg (by simp [hA]), if_neg hns, if_pos hfloor]
    refine ⟨h2, ?_, ?_, ?_, ?_, ?_⟩
    · simp only [stepState, h2]; exact hA
    · simp only [stepState, h2]
    · simp only [stepState, h2]
    · simp only [stepState, h2]
    · simp only [stepState, h2]

/-- The session state right after question 1's delivery finished (the
candidate may answer), used as a concrete witness state. -/
def demoAwait : SessionState :=
  stepState demoStart Event.upstreamTurnComplete

/-- C7, witness: the two resume-listening responses at the concrete
awaiting state (no audio received yet). -/
theorem self_loop_insufficient_input_check :
    stepFull demoAwait (Event.clientEndOfTurn (some false)) =
      ({ demoAwait with receivedAudioSinceLastTurn := false, audioBytesSinceLastTurn := 0,
                        audioChunksSinceLastTurn := 0 },
       [ClientMsg.resumeListening "no_speech"]) ∧
    stepFull demoAwait (Event.clientEndOfTurn (some true)) =
      ({ demoAwait with receivedAudioSinceLastTurn := false, audioBytesSinceLastTurn := 0,
                        audioChunksSinceLastTurn := 0 },
       [ClientMsg.resumeListening "too_short"]) :=
  ⟨(self_loop_insufficient_input demoAwait (by decide) (some true)).1.1,
   ((self_loop_insufficient_input demoAwait (by decide) (some true)).2
      (by decide) (by decide)).1⟩

/-! ### Association-list lookup lemmas for `setAssoc` (C8) -/

theorem lookupA_map_update (l : List (Int × List Char)) (k : Int) (v : List Char)
    (h : (lookupA l k).isSome) :
    lookupA (l.map (fun p => if p.1 = k then (k, v) else p)) k = some v := by
  induction l with
  | nil => simp [lookupA] at h
  | cons p t ih =>
    obtain ⟨a, b⟩ := p
    by_cases hk : a = k
    · subst hk
      simp only [List.map_cons]
      simp [lookupA]
    · have hk2 : ¬ k = a := fun hx => hk hx.symm
      simp only [lookupA, if_neg hk2] at h
      simp only [List.map_cons]
      rw [if_neg (by simpa using hk)]
      simp only [lookupA]
      rw [if_neg hk2]
      exact ih h

theorem lookupA_map_other (l : List (Int × List Char)) (k : Int) (v : List Char)
    (m : Int) (hm : m ≠ k) :
    lookupA (l.map (fun p => if p.1 = k then (k, v) else p)) m = lookupA l m := by
  induction l with
  | nil => simp [lookupA]
  | cons p t ih =>
    obtain ⟨a, b⟩ := p
    by_cases hk : a = k
    · subst hk
      simp only [List.map_cons]
      rw [if_pos (by simp)]
      simp only [lookupA]
      rw [if_neg hm, if_neg hm]
      exact ih
    · simp only [List.map_cons]
      rw [if_neg (by simpa using hk)]
      simp only [lookupA]
      by_cases hma : m = a
      · rw [if_pos hma, if_pos hma]
      · rw [if_neg hma, if_neg hma]
        exact ih

theorem lookupA_append_self (l : List (Int × List Char)) (k : Int) (v : List Char)
    (h : lookupA l k = none) : lookupA (l ++ [(k, v)]) k = some v := by
  induction l with
  | nil => simp [lookupA]
  | cons p t ih =>
    obtain ⟨a, b⟩ := p
    by_cases hka : k = a
    · simp [lookupA, hka] at h
    · simp only [lookupA, if_neg hka] at h
      simp only [List.cons_append, lookupA]
      rw [if_neg hka]
      exact ih h

theorem lookupA_append_other (l : List (Int × List Char)) (k : Int) (v : List Char)
    (m : Int) (hm : m ≠ k) : lookupA (l ++ [(k, v)]) m = lookupA l m := by
  induction l with
  | nil => simp [lookupA, hm]
  | cons p t ih =>
    obtain ⟨a, b⟩ := p
    simp only [List.cons_append, lookupA]
    by_cases hma : m = a
    · rw [if_pos hma, if_pos hma]
    · rw [if_neg hma, if_neg hma]
      exact ih

theorem lookupA_setAssoc_self (l : List (Int × List Char)) (k : Int) (v : List Char) :
    lookupA (setAssoc l k v) k = some v := by
  unfold setAssoc
  split
  · rename_i h
    exact lookupA_map_update l k v h
  · rename_i h
    exact lookupA_append_self l k v (by simpa using h)

theorem lookupA_setAssoc_other (l : List (Int × List Char)) (k : Int) (v : List Char)
    (m : Int) (hm : m ≠ k) : lookupA (setAssoc l k v) m = lookupA l m := by
  unfold setAssoc
  split
  · exact lookupA_map_other l k v m hm
  · exact lookupA_append_other l k v m hm

/-- C8, counterexample: the claim says a stored per-question transcript
is "overwritten only by a longer/more-complete transcript", but
`_store_candidate_transcript` overwrites unconditionally: storing the
1-character transcript `"x"` for question 1 replaces the stored
46-character transcript. -/
theorem best_transcript_overwrite_cex :
    lookupA (_store_candidate_transcript
        (_store_candidate_transcript (initialState demoQuestions) 1
          "i led the migration project across three teams".toList)
        1 "x".toList).candidateAnswers 1 = some "x".toList ∧
    lookupA (_store_candidate_transcript (initialState demoQuestions) 1
        "i led the migration project across three teams".toList).candidateAnswers 1
      = some "i led the migration project across three teams".toList ∧
    "x".toList.length < "i led the migration project across three teams".toList.length := by
  refine ⟨by decide, by decide, by decide⟩

/-- C8, amended: a store with a non-positive question number or a
whitespace-only transcript leaves the state unchanged; any other store
overwrites the mapping entry for that question with the normalized new
transcript (regardless of length), leaves other entries alone, and
never touches `conversation_history`. -/
theorem transcript_overwrite_amended (s : SessionState) (n m : Int) (t : List Char) :
    (¬ 0 < n → _store_candidate_transcript s n t = s) ∧
    (_norm_text t = [] → _store_candidate_transcript s n t = s) ∧
    (0 < n → _norm_text t ≠ [] →
      lookupA (_store_candidate_transcript s n t).candidateAnswers n
        = some (_norm_text t) ∧
      (m ≠ n → lookupA (_store_candidate_transcript s n t).candidateAnswers m
        = lookupA s.candidateAnswers m) ∧
      (_store_candidate_transcript s n t).conversationHistory = s.conversationHistory) := by
  refine ⟨?_, ?_, ?_⟩
  · intro h
    unfold _store_candidate_transcript
    rw [if_pos h]
  · intro h
    unfold _store_candidate_transcript
    split
    · rfl
    · dsimp only
      rw [if_pos (by simp [h])]
  · intro h1 h2
    have hne : ¬ ((_norm_text t).isEmpty = true) := by
      simpa [List.isEmpty_iff] using h2
    have hstore : _store_candidate_transcript s n t =
        { s with candidateAnswers := setAssoc s.candidateAnswers n (_norm_text t) } := by
      unfold _store_candidate_transcript
      rw [if_neg (not_not_intro h1)]
      dsimp only
      rw [if_neg hne]
    rw [hstore]
    exact ⟨lookupA_setAssoc_self s.candidateAnswers n (_norm_text t),
           fun hm => lookupA_setAssoc_other s.candidateAnswers n (_norm_text t) m hm,
           rfl⟩

/-- C8, witness for the amended theorem: a valid store at question 1
with a fresh transcript. -/
theorem transcript_overwrite_amended_check :
    lookupA (_store_candidate_transcript (initialState demoQuestions) 1
        "  we shipped  the fix  ".toList).candidateAnswers 1
      = some (_norm_text "  we shipped  the fix  ".toList) ∧
    ((2 : Int) ≠ 1 →
      lookupA (_store_candidate_transcript (initialState demoQuestions) 1
          "  we shipped  the fix  ".toList).candidateAnswers 2
        = lookupA (initialState demoQuestions).candidateAnswers 2) ∧
    (_store_candidate_transcript (initialState demoQuestions) 1
        "  we shipped  the fix  ".toList).conversationHistory
      = (initialState demoQuestions).conversationHistory :=
  (transcript_overwrite_amended (initialState demoQuestions) 1 2
      "  we shipped  the fix  ".toList).2.2 (by decide) (by decide)

theorem step_questions (s : SessionState) (e : Event) :
    (stepState s e).questions = s.questions := by
  cases e with
  | upstreamTurnComplete =>
    simp only [stepState, stepFull]
    split
    · rfl
    · split
      · rfl
      · rfl
  | serverTranscriptDone text => rfl
  | clientTranscriptFinal qn text =>
    simp only [stepState, stepFull]
    exact (store_effect s (qn.getD (s.currentQuestionInFlight : Int)) text).2.2.2.1
  | clientAudio n =>
    simp only [stepState, stepFull]
    split
    · rfl
    · rfl
  | clientEndOfTurn hs =>
    simp only [stepState, stepFull]
    split
    · rfl
    · split
      · rfl
      · split
        · rfl
        · obtain ⟨_, _, _, c4, _, _, _⟩ := commit_effect s
          unfold endOfTurnAdvance
          split
          · split
            · rename_i s5 out hsend
              obtain ⟨hs5, _, _, _⟩ := send_some _ _ _ _ hsend
              subst hs5
              simpa using c4
            · simpa using c4
          · simpa using c4

/-- C9 (code bug): `generate_questions_with_prompt` validates that the
parsed `questions` list has exactly 3 entries but then strips and
filters out blank entries, so the parsed
`{"questions": ["…", "   ", "…"]}` passes the `len != 3` check yet the
session keeps only 2 questions — contradicting the claim (and the
function's own validation intent) that the session irrevocably holds
exactly 3 non-empty questions.  The second conjunct confirms the rest
of the claim: no session event ever modifies `questions`. -/
theorem fixed_question_set_bug :
    finalize_generated_questions
        (some ["Tell me about a challenge you faced.".toList, "   ".toList,
               "Describe a conflict you resolved.".toList])
      = some ["Tell me about a challenge you faced.".toList,
              "Describe a conflict you resolved.".toList] ∧
    (∀ (s : SessionState) (e : Event), (stepState s e).questions = s.questions) :=
  ⟨by decide, step_questions⟩

/-- C10: invoked with an empty conversation history the evaluation
returns exactly score 50, not disqualified, empty flags — for every
possible model response (so neither guardrails nor the model scorer are
consulted) — and this default is distinct from the score-40
parse-failure fallback. -/
theorem empty_history_default (maxQuestions : Nat) (model : Option ParsedResponse) :
    evaluate_interview_performance [] maxQuestions model
      = ⟨50, false, [], scoringVersion⟩ ∧
    (evaluate_interview_performance [] maxQuestions model).score ≠ 40 := by
  have h : evaluate_interview_performance [] maxQuestions model
      = ⟨50, false, [], scoringVersion⟩ := rfl
  refine ⟨h, ?_⟩
  rw [h]
  decide

/-- C6: whenever the deterministic guardrail stage does not
short-circuit and the conversation is non-empty, a model scoring
response from which no object with an `overall_score` could be parsed
(modelled as `none`) makes the evaluation return exactly the
conservative fallback — score 40, not disqualified, empty flags — as an
ordinary result rather than an error. -/
theorem conservative_parse_fallback (conv : List Msg) (maxQuestions : Nat)
    (hne : conv ≠ []) (hguard : guardrailShortCircuit conv maxQuestions = none) :
    evaluate_interview_performance conv maxQuestions none
      = ⟨40, false, [], scoringVersion⟩ := by
  unfold evaluate_interview_performance
  rw [if_neg (by simpa using hne), hguard]

/-- A concrete two-entry conversation with one substantive candidate
answer, used as a witness input for the evaluation theorems. -/
def demoEvalConv : List Msg :=
  [⟨Role.interviewer, "Tell me about a project you led.".toList⟩,
   ⟨Role.candidate, "we built a resilient billing service together last year".toList⟩]

/-- C6, witness: the conservative fallback at the concrete conversation. -/
theorem conservative_parse_fallback_check :
    evaluate_interview_performance demoEvalConv 3 none
      = ⟨40, false, [], scoringVersion⟩ :=
  conservative_parse_fallback demoEvalConv 3 (by decide) (by decide)

/-- C5, counterexample: the candidate answer
`"i yell at my coworker and i will kill him"` contains explicit
violence vocabulary (`kill` matches the violence pattern), yet the
evaluation returns `violence_threat = false`, because the
yelling-at-coworkers check (backend.py:3575) fires first and its return
value carries `"violence_threat": False`. -/
theorem violence_guardrail_cex :
    reSearch violenceAlts
        (ctOf [⟨Role.candidate, "i yell at my coworker and i will kill him".toList⟩] 3)
      = true ∧
    evaluate_interview_performance
        [⟨Role.candidate, "i yell at my coworker and i will kill him".toList⟩] 3 none
      = ⟨5, true, contentFlags false, scoringVersion⟩ ∧
    flagGet (contentFlags false) "violence_threat" = false := by
  refine ⟨by decide, by decide, by decide⟩

/-- C5, amended: for every conversation whose consolidated candidate
text matches the violence/threat pattern and matches neither the
higher-priority yelling-at-coworkers check nor the
no-work/abandonment check, the evaluation — for every model response,
without consulting the model — returns score 5 (≤ 5), disqualified,
with `violence_threat = true`. -/
theorem violence_guardrail_amended (conv : List Msg) (model : Option ParsedResponse)
    (hv : reSearch violenceAlts (ctOf conv 3) = true)
    (hyell : (reSearch yellAlts (ctOf conv 3) && reSearch coworkerAlts (ctOf conv 3)) = false)
    (hnwab : (reSearch noWorkAlts (ctOf conv 3) || reSearch abandonAlts (ctOf conv 3)) = false) :
    evaluate_interview_performance conv 3 model
      = ⟨5, true, contentFlags true, scoringVersion⟩ := by
  have hctne : ctOf conv 3 ≠ [] := by
    intro h0
    rw [h0] at hv
    exact absurd hv (by decide)
  have hcte : candidateTextOf conv 3 ≠ [] := by
    intro h0
    apply hctne
    unfold ctOf
    rw [h0]
    rfl
  have hconv : ¬ (conv.isEmpty = true) := by
    intro h0
    apply hctne
    have hc : conv = [] := by simpa using h0
    rw [hc]
    decide
  unfold evaluate_interview_performance
  rw [if_neg hconv]
  have hgr : guardrailShortCircuit conv 3 = some ⟨5, true, contentFlags true, scoringVersion⟩ := by
    unfold guardrailShortCircuit
    dsimp only
    rw [if_neg (by simp [hyell]), if_neg (by simp [hnwab]),
        if_pos (by simp [List.isEmpty_iff, hcte]), if_pos hv]
  rw [hgr]

/-- C5, witness for the amended theorem: a single candidate answer with
explicit threat vocabulary and no higher-priority pattern. -/
theorem violence_guardrail_amended_check :
    evaluate_interview_performance
        [⟨Role.candidate, "i will attack anyone who disagrees with me".toList⟩] 3 none
      = ⟨5, true, contentFlags true, scoringVersion⟩ :=
  violence_guardrail_amended
    [⟨Role.candidate, "i will attack anyone who disagrees with me".toList⟩] none
    (by decide) (by decide) (by decide)

/-! ### Quick-check vs full-check nonsense classification (C4) -/

theorem scanAlts_mono (altsA altsB : List (List Seg))
    (hsub : ∀ a ∈ altsA, a ∈ altsB) :
    ∀ (s : List Char) (prev : Option Char),
      scanAlts altsA prev s = true → scanAlts altsB prev s = true := by
  intro s
  induction s with
  | nil =>
    intro prev h
    simp only [scanAlts, List.any_eq_true] at h ⊢
    obtain ⟨a, ha, hm⟩ := h
    exact ⟨a, hsub a ha, hm⟩
  | cons c t ih =>
    intro prev h
    simp only [scanAlts] at h ⊢
    by_cases hB : altsB.any (fun a => (consumeSegs a prev (c :: t)).isSome) = true
    · rw [if_pos hB]
    · rw [if_neg hB]
      by_cases hA : altsA.any (fun a => (consumeSegs a prev (c :: t)).isSome) = true
      · exfalso
        apply hB
        simp only [List.any_eq_true] at hA ⊢
        obtain ⟨a, ha, hm⟩ := hA
        exact ⟨a, hsub a ha, hm⟩
      · rw [if_neg hA] at h
        exact ih (some c) h

theorem quick_imp_full (a : List Char) (h : _is_nonsense_quick a = true) :
    _is_nonsense_answer a = true := by
  unfold _is_nonsense_quick at h
  unfold _is_nonsense_answer
  by_cases ht : (_norm_text a).isEmpty = true
  · rw [if_pos ht]
  · rw [if_neg ht]
    dsimp only at h ⊢
    have hlow : (casefoldL (_norm_text a)).isEmpty = false := by
      cases hx : _norm_text a with
      | nil => exact absurd (by rw [hx]; rfl) ht
      | cons d u => rfl
    rw [if_neg (by simp [hlow])] at h
    by_cases hq : reSearch nonAnswerQuickAlts (casefoldL (_norm_text a)) = true
    · have hfullmatch : reSearch nonAnswerAlts (casefoldL (_norm_text a)) = true :=
        scanAlts_mono nonAnswerQuickAlts nonAnswerAlts (by decide) _ none hq
      rw [if_pos hfullmatch]
    · rw [if_neg hq] at h
      have hwc : (wordTokens (casefoldL (_norm_text a))).length < 6 := by
        by_contra hno
        rw [if_neg hno] at h
        exact absurd h (by decide)
      by_cases h1 : reSearch nonAnswerAlts (casefoldL (_norm_text a)) = true
      · rw [if_pos h1]
      · rw [if_neg h1]
        by_cases h2 : (reSearch dontKnowAlts (casefoldL (_norm_text a))
            && decide ((casefoldL (_norm_text a)).length < 120)) = true
        · rw [if_pos h2]
        · rw [if_neg h2]
          by_cases h3 : reSearch gibberishAlts (casefoldL (_norm_text a)) = true
          · rw [if_pos h3]
          · rw [if_neg h3]
            rw [if_pos hwc]

theorem filter_length_mono (l : List (List Char)) (p q : List Char → Bool)
    (h : ∀ a, p a = true → q a = true) :
    (l.filter p).length ≤ (l.filter q).length := by
  induction l with
  | nil => simp
  | cons a t ih =>
    by_cases hp : p a = true
    · rw [List.filter_cons_of_pos hp, List.filter_cons_of_pos (h a hp)]
      simpa using ih
    · rw [List.filter_cons_of_neg (by simpa using hp)]
      by_cases hq : q a = true
      · rw [List.filter_cons_of_pos hq]
        exact Nat.le_succ_of_le ih
      · rw [List.filter_cons_of_neg (by simpa using hq)]
        exact ih

theorem guardrail_nonsense_value (conv : List Msg)
    (hyell : (reSearch yellAlts (ctOf conv 3) && reSearch coworkerAlts (ctOf conv 3)) = false)
    (hnwab : (reSearch noWorkAlts (ctOf conv 3) || reSearch abandonAlts (ctOf conv 3)) = false)
    (hv : reSearch violenceAlts (ctOf conv 3) = false)
    (hun : reSearch unethicalAlts (ctOf conv 3) = false)
    (hvt : (reSearch vagueThreatAlts (ctOf conv 3) && reSearch employmentAlts (ctOf conv 3)) = false)
    (hcte : candidateTextOf conv 3 ≠ [])
    (hne : candidateAnswersOf conv 3 ≠ []) :
    guardrailShortCircuit conv 3 =
      (if ((candidateAnswersOf conv 3).filter _is_nonsense_answer).length
          = (candidateAnswersOf conv 3).length then
        some ⟨0, true, unprofessionalFlags, scoringVersion⟩
      else if 2 ≤ ((candidateAnswersOf conv 3).filter _is_nonsense_answer).length then
        some ⟨5, true, unprofessionalFlags, scoringVersion⟩
      else none) := by
  unfold guardrailShortCircuit
  dsimp only
  rw [if_neg (by simp [hyell]), if_neg (by simp [hnwab]),
      if_pos (by simp [List.isEmpty_iff, hcte]), if_neg (by simp [hv]),
      if_neg (by simp [hun]), if_neg (by simp [hvt]),
      if_pos (by simp [List.isEmpty_iff, hne])]

theorem postParse_qcount_one (conv : List Msg) (p : ParsedResponse)
    (hq : ((candidateAnswersOf conv 3).filter _is_nonsense_quick).length = 1)
    (hlen : 1 < (candidateAnswersOf conv 3).length) :
    (postParseScore conv 3 p).score ≤ 20 ∧
    (postParseScore conv 3 p).disqualified =
      (if minProfOf p ≤ 1 then true
       else (flagGet (p.flags.getD []) "harassment_hate"
          || flagGet (p.flags.getD []) "sexual"
          || flagGet (p.flags.getD []) "violence_threat")) := by
  have hne1 : ¬ (((candidateAnswersOf conv 3).filter _is_nonsense_quick).length
      = (candidateAnswersOf conv 3).length) := by omega
  have hnot2 : ¬ (2 ≤ ((candidateAnswersOf conv 3).filter _is_nonsense_quick).length) := by
    omega
  have c1 : (!(candidateAnswersOf conv 3).isEmpty
      && decide (((candidateAnswersOf conv 3).filter _is_nonsense_quick).length
        = (candidateAnswersOf conv 3).length)) = false := by
    simp [hne1]
  unfold postParseScore
  dsimp only
  rw [c1]
  simp only [Bool.false_eq_true, if_false]
  rw [if_neg hnot2, if_neg hnot2, if_pos hq]
  exact ⟨min_le_right _ _, rfl⟩

/-- C4, counterexample: for the single consolidated answer `"kill"`
every answer is classified nonsense, yet the evaluation returns score 5
(the violence guardrail fires first, backend.py:3619-3627), not the
score 0 demanded by the claim's all-nonsense clause. -/
theorem nonsense_aggregate_cex :
    candidateAnswersOf [⟨Role.candidate, "kill".toList⟩] 3 = ["kill".toList] ∧
    _is_nonsense_answer "kill".toList = true ∧
    evaluate_interview_performance [⟨Role.candidate, "kill".toList⟩] 3 none
      = ⟨5, true, contentFlags true, scoringVersion⟩ ∧
    (evaluate_interview_performance [⟨Role.candidate, "kill".toList⟩] 3 none).score ≠ 0 := by
  refine ⟨by decide, by decide, by decide, by decide⟩

/-- C4, amended: for conversations with at least one consolidated
candidate answer on which none of the disqualifying-content patterns
fires: all answers nonsense ⇒ exactly score 0, disqualified; at least 2
nonsense ⇒ score ≤ 5, disqualified (both independent of the model
response, which is not consulted); and when exactly one answer is
nonsense under the full check among ≥ 2 answers and exactly one under
the quick re-check applied after model scoring, the final score is
capped at 20, and that cap alone does not set `disqualified` (it stays
false whenever the parsed flags and the per-answer professionalism
floor do not set it). -/
theorem nonsense_aggregate_amended (conv : List Msg) (p : ParsedResponse)
    (model : Option ParsedResponse)
    (hyell : (reSearch yellAlts (ctOf conv 3) && reSearch coworkerAlts (ctOf conv 3)) = false)
    (hnwab : (reSearch noWorkAlts (ctOf conv 3) || reSearch abandonAlts (ctOf conv 3)) = false)
    (hv : reSearch violenceAlts (ctOf conv 3) = false)
    (hun : reSearch unethicalAlts (ctOf conv 3) = false)
    (hvt : (reSearch vagueThreatAlts (ctOf conv 3) && reSearch employmentAlts (ctOf conv 3)) = false)
    (hcte : candidateTextOf conv 3 ≠ [])
    (hne : candidateAnswersOf conv 3 ≠ []) :
    (((candidateAnswersOf conv 3).filter _is_nonsense_answer).length
        = (candidateAnswersOf conv 3).length →
      evaluate_interview_performance conv 3 model
        = ⟨0, true, unprofessionalFlags, scoringVersion⟩) ∧
    (2 ≤ ((candidateAnswersOf conv 3).filter _is_nonsense_answer).length →
      (evaluate_interview_performance conv 3 model).score ≤ 5 ∧
      (evaluate_interview_performance conv 3 model).disqualified = true) ∧
    (((candidateAnswersOf conv 3).filter _is_nonsense_answer).length = 1 →
      1 < (candidateAnswersOf conv 3).length →
      ((candidateAnswersOf conv 3).filter _is_nonsense_quick).length = 1 →
      (evaluate_interview_performance conv 3 (some p)).score ≤ 20 ∧
      ((flagGet (p.flags.getD []) "harassment_hate"
          || flagGet (p.flags.getD []) "sexual"
          || flagGet (p.flags.getD []) "violence_threat") = false →
        1 < minProfOf p →
        (evaluate_interview_performance conv 3 (some p)).disqualified = false)) := by
  have hconv : ¬ (conv.isEmpty = true) := by
    intro h0
    apply hne
    have hc : conv = [] := by simpa using h0
    rw [hc]
    decide
  have hgr := guardrail_nonsense_value conv hyell hnwab hv hun hvt hcte hne
  refine ⟨?_, ?_, ?_⟩
  · intro hall
    unfold evaluate_interview_performance
    rw [if_neg hconv, hgr, if_pos hall]
  · intro h2
    by_cases hall : ((candidateAnswersOf conv 3).filter _is_nonsense_answer).length
        = (candidateAnswersOf conv 3).length
    · have ha : evaluate_interview_performance conv 3 model
          = ⟨0, true, unprofessionalFlags, scoringVersion⟩ := by
        unfold evaluate_interview_performance
        rw [if_neg hconv, hgr, if_pos hall]
      rw [ha]
      exact ⟨by decide, rfl⟩
    · have hb : evaluate_interview_performance conv 3 model
          = ⟨5, true, unprofessionalFlags, scoringVersion⟩ := by
        unfold evaluate_interview_performance
        rw [if_neg hconv, hgr, if_neg hall, if_pos h2]
      rw [hb]
      exact ⟨by decide, rfl⟩
  · intro h1 hlen hq
    have hgnone : guardrailShortCircuit conv 3 = none := by
      rw [hgr, if_neg (by omega), if_neg (by omega)]
    have hpp : evaluate_interview_performance conv 3 (some p)
        = postParseScore conv 3 p := by
      unfold evaluate_interview_performance
      rw [if_neg hconv, hgnone]
    obtain ⟨hs, hd⟩ := postParse_qcount_one conv p hq hlen
    refine ⟨?_, ?_⟩
    · rw [hpp]; exact hs
    · intro hfl hmp
      rw [hpp, hd, if_neg (by omega)]
      exact hfl

/-- Conversation with one quick-nonsense answer among three, used as a
witness input. -/
def demoNonsenseConv : List Msg :=
  [⟨Role.candidate, "pass".toList⟩,
   ⟨Role.candidate, "we shipped the billing fix after testing".toList⟩,
   ⟨Role.candidate, "i organized the team retro notes weekly".toList⟩]

/-- A parsed model response with a high score and clean flags. -/
def demoParsed : ParsedResponse := ⟨80, some [], some [4, 4, 4]⟩

/-- C4, witness: with exactly one nonsense answer the score is capped at
20 and disqualified stays false. -/
theorem nonsense_aggregate_amended_check :
    (evaluate_interview_performance demoNonsenseConv 3 (some demoParsed)).score ≤ 20 ∧
    (evaluate_interview_performance demoNonsenseConv 3 (some demoParsed)).disqualified
      = false := by
  have h := (nonsense_aggregate_amended demoNonsenseConv demoParsed (some demoParsed)
    (by decide) (by decide) (by decide) (by decide) (by decide) (by decide)
    (by decide)).2.2 (by decide) (by decide) (by decide)
  exact ⟨h.1, h.2 (by decide) (by decide)⟩
